import Mathlib

set_option maxRecDepth 100000

/-!
Verification of the CodeZip Analyst repository (a thin client that uploads a
ZIP of source files and requests an automated analysis from a remote
generative service).

The embedding below follows the two source files:

* `src/services/geminiService.ts` — `analyzeCodebase` (the Context Selector
  stage, lines 9 to 14: filter, slice to 30 entries, per-file truncation to
  5000 characters, join with a delimiter; then the single outbound request
  and `JSON.parse(response.text) as AnalysisResult`) and the helper
  `isLikelyText`.
* `src/types.ts` — the `ZipFile` record, and `handleFileUpload`, which sorts
  the extracted entries with `a.path.localeCompare(b.path)`.

JavaScript built-ins that the source calls (`String.prototype.toLowerCase`,
`String.prototype.endsWith`, `String.prototype.substring`,
`Array.prototype.join`, `JSON.parse`, `String.prototype.localeCompare`) have
no Lean counterpart; each is embedded as a Lean definition of its ECMAScript
semantics, documented at the definition.  Strings are modelled at the
character level (the repository only manipulates them at whole-character
granularity in every behaviour the claims mention).
-/

/-- The `ZipFile` record from `src/types.ts`: one extracted archive entry. -/
structure ZipFile where
  name : String
  path : String
  content : String
  isDirectory : Bool
deriving DecidableEq

/-- Embedding of JavaScript `String.prototype.toLowerCase` restricted to the
basic-latin range: each character is lower-cased individually.  (`Char.toLower`
lower-cases exactly the ASCII letters, which agrees with JavaScript on every
character the allow-listed extensions can match.) -/
def jsToLowerCase (s : String) : String :=
  ⟨s.data.map Char.toLower⟩

/-- Embedding of JavaScript `String.prototype.endsWith`: the receiver ends
with the given search string. -/
def jsEndsWith (s pat : String) : Bool :=
  pat.data.isSuffixOf s.data

/-- Embedding of JavaScript `s.substring(0, n)`: the first `n` characters of
`s` (all of `s` when it is shorter than `n`). -/
def jsSubstring0 (s : String) (n : Nat) : String :=
  ⟨s.data.take n⟩

/-- Embedding of JavaScript `Array.prototype.join` with a separator: empty
array gives the empty string, otherwise the elements with the separator
between consecutive elements (no leading or trailing separator). -/
def jsJoin (sep : String) : List String → String
  | [] => ""
  | [s] => s
  | s :: rest => s ++ sep ++ jsJoin sep rest

/-- The fixed extension allow-list from `isLikelyText`
(`src/services/geminiService.ts`, line 62). -/
def textExtensions : List String :=
  [".ts", ".tsx", ".js", ".jsx", ".json", ".html", ".css", ".md", ".txt",
   ".py", ".rb", ".go", ".java", ".c", ".cpp", ".rs", ".php"]

/-- `isLikelyText` (`src/services/geminiService.ts`, lines 61 to 64):
`textExtensions.some(ext => filename.toLowerCase().endsWith(ext))`. -/
def isLikelyText (filename : String) : Bool :=
  textExtensions.any fun ext => jsEndsWith (jsToLowerCase filename) ext

/-- Line 9: `files.filter(f => !f.isDirectory && isLikelyText(f.name))`. -/
def textFiles (files : List ZipFile) : List ZipFile :=
  files.filter fun f => !f.isDirectory && isLikelyText f.name

/-- Line 12: `textFiles.slice(0, 30)`. -/
def contextFiles (files : List ZipFile) : List ZipFile :=
  (textFiles files).take 30

/-- The per-entry template of line 14:
`FILE: ${f.path}\nCONTENT:\n${f.content.substring(0, 5000)}`. -/
def fileBlock (f : ZipFile) : String :=
  "FILE: " ++ f.path ++ "\nCONTENT:\n" ++ jsSubstring0 f.content 5000

/-- Line 14: `contextFiles.map(...).join(...)` with the separator
`\n\n---\n\n`. -/
def filesContext (files : List ZipFile) : String :=
  jsJoin "\n\n---\n\n" ((contextFiles files).map fileBlock)

/-- The text of the template literal of lines 16 to 25 that precedes the
interpolated `${filesContext}`. -/
def promptBefore : String :=
  "\n    You are a world-class code analyst and software engineer. I have uploaded a ZIP file containing source code. \n    Here is the content of the primary files in the project:\n    \n    "

/-- The text of the template literal of lines 16 to 25 that follows the
interpolated `${filesContext}`. -/
def promptAfter : String :=
  "\n    \n    Please analyze this project. Determine what it is, how it works, and \"run\" it in your simulation.\n    Explain what would happen if this code were executed in its appropriate environment.\n    Identify the main entry point and key dependencies.\n  "

/-- The prompt built by `analyzeCodebase` (lines 16 to 25): the template
literal with the serialized context interpolated in the middle. -/
def buildPrompt (files : List ZipFile) : String :=
  promptBefore ++ filesContext files ++ promptAfter

/-- A JSON value, as produced by a successful `JSON.parse`. -/
inductive Json where
  | null
  | bool (b : Bool)
  | num (n : Int)
  | str (s : String)
  | arr (elems : List Json)
  | obj (fields : List (String × Json))

/-- Outcome of the single awaited `ai.models.generateContent` call (line 27).
`success body` is a fulfilled response whose `text` is a string that either
is valid JSON denoting the value `j` (`body = some j`) or is not valid JSON
(`body = none`); `failure cause` is a rejected promise (network error,
non-success status, timeout, rate limit, credential rejection), carrying the
upstream cause.  `JSON.parse` is thereby embedded by its ECMAScript outcome:
it yields the denoted value on valid JSON text and throws a `SyntaxError`
otherwise. -/
inductive TransportOutcome where
  | success (body : Option Json)
  | failure (cause : String)

/-- An exception escaping `analyzeCodebase`: either the `SyntaxError` thrown
by `JSON.parse` on a malformed body, or the uncaught rejection of the
transport call (there is no `try`/`catch` in `analyzeCodebase`, so the
upstream cause propagates to the caller unchanged). -/
inductive JsError where
  | syntaxError
  | upstreamFailure (cause : String)
deriving DecidableEq

/-- How an invocation of the async function `analyzeCodebase` settles: it
either fulfills with the value returned at line 58 — note that
`JSON.parse(response.text) as AnalysisResult` is a compile-time type
assertion performing no runtime check, so the fulfilled value is whatever
JSON value the body denoted — or rejects with an uncaught exception. -/
inductive JsOutcome where
  | ok (value : Json)
  | thrown (err : JsError)

/-- `analyzeCodebase` (`src/services/geminiService.ts`, lines 7 to 59),
instrumented with the transport: `respond` maps the prompt of an outbound
request to the `TransportOutcome` of that request.  The first component is how
the invocation settles; the second lists the prompts of the outbound
requests the invocation issued (the body has exactly one call site of
`generateContent`, executed exactly once). -/
def analyzeCodebase (respond : String → TransportOutcome) (files : List ZipFile) :
    JsOutcome × List String :=
  let prompt := buildPrompt files
  match respond prompt with
  | TransportOutcome.failure cause =>
      (JsOutcome.thrown (JsError.upstreamFailure cause), [prompt])
  | TransportOutcome.success none =>
      (JsOutcome.thrown JsError.syntaxError, [prompt])
  | TransportOutcome.success (some j) =>
      (JsOutcome.ok j, [prompt])

/-!
`handleFileUpload` (`src/types.ts`) sorts the extracted entries with
`extractedFiles.sort((a, b) => a.path.localeCompare(b.path))`.
`String.prototype.localeCompare` with no arguments compares under the
default collation.  It is embedded below, modelled from the ECMA-402
default collator (the CLDR root collation) restricted to the basic-latin
range: strings compare first by their sequence of primary weights (letters
case-insensitively, other characters by code point) and, when the primary
sequences tie, by their sequence of case weights (lower case before upper
case).  `Array.prototype.sort` with a consistent comparator produces a
stable sorted permutation (ECMA-262); it is embedded as insertion sort.
-/

/-- Lexicographic comparison of two sequences of numeric collation weights;
negative, zero, positive mirror the sign contract of a JavaScript
comparator. -/
def cmpWeights : List Nat → List Nat → Int
  | [], [] => 0
  | [], _ :: _ => -1
  | _ :: _, [] => 1
  | a :: as, b :: bs =>
      if a < b then -1 else if b < a then 1 else cmpWeights as bs

/-- Primary collation weights of a string: letters fold to their lower-case
code point, every other character keeps its code point. -/
def primaryWeights (s : String) : List Nat :=
  s.data.map fun c => (Char.toLower c).toNat

/-- Case (tertiary) collation weights of a string: 0 for a character that is
not an upper-case letter, 1 for an upper-case letter, so lower case sorts
before upper case on a primary tie. -/
def caseWeights (s : String) : List Nat :=
  s.data.map fun c => if c.isUpper then 1 else 0

/-- Embedding of `a.localeCompare(b)` under the default collation (see the
module note above): primary weights decide, case weights break ties. -/
def localeCompare (a b : String) : Int :=
  if cmpWeights (primaryWeights a) (primaryWeights b) = 0 then
    cmpWeights (caseWeights a) (caseWeights b)
  else
    cmpWeights (primaryWeights a) (primaryWeights b)

/-- The comparator-induced order used by `handleFileUpload`:
`a.path.localeCompare(b.path) <= 0`. -/
def lcLe (a b : ZipFile) : Prop :=
  localeCompare a.path b.path ≤ 0

instance instDecLcLe : DecidableRel lcLe :=
  fun a b => Int.decLe (localeCompare a.path b.path) 0

/-- The sort of `src/types.ts` line 73:
`extractedFiles.sort((a, b) => a.path.localeCompare(b.path))`, embedded as a
stable sort by the comparator order. -/
def sortEntries (files : List ZipFile) : List ZipFile :=
  List.insertionSort lcLe files

/-!
Specification-side definitions.  These follow the wording of the design
document, to be compared against the definitions above, which follow the
source.
-/

/-- The serialization format as the specification words it: entries joined so
that consecutive entries are separated by a blank line, a `---` delimiter
line, and another blank line, with no trailing delimiter after the last
entry.  (Each entry block ends without a newline of its own, so the
separator written between two blocks is newline, empty line, `---`, empty
line, newline: the string between the blocks is `\n\n---\n\n`.) -/
def specJoinBlocks : List String → String
  | [] => ""
  | [b] => b
  | b :: rest => b ++ "\n" ++ "\n" ++ "---" ++ "\n" ++ "\n" ++ specJoinBlocks rest

/-- The count of eligible-but-dropped entries as the specification words it:
eligible count minus 30, floored at 0 (`Nat` subtraction floors at 0). -/
def specDroppedCount (files : List ZipFile) : Nat :=
  (textFiles files).length - 30

/-- Case-sensitive lexical (code-unit) comparison of character sequences, as
the ordering claim words it: plain lexicographic order on code points. -/
def codeUnitLe (a b : String) : Bool :=
  go a.data b.data
where
  go : List Char → List Char → Bool
    | [], _ => true
    | _ :: _, [] => false
    | a :: as, b :: bs =>
        if a.toNat < b.toNat then true
        else if b.toNat < a.toNat then false
        else go as bs

/-!
Exception-aware embedding of the Context Selector, used to settle the
totality claim.  A JavaScript expression either evaluates to a value or
throws; each string or array primitive the selector stage calls is mirrored
here as an `Except`-valued function (per ECMAScript these primitives are
total on string and array receivers, so each mirrors to `pure`), and the
selector is rebuilt by binding them.  The claim that the selector never
throws is then the statement that this embedding never reaches an `error`.
-/

/-- Exception-aware `String.prototype.toLowerCase`. -/
def jsToLowerCaseE (s : String) : Except JsError String :=
  pure (jsToLowerCase s)

/-- Exception-aware `String.prototype.endsWith`. -/
def jsEndsWithE (s pat : String) : Except JsError Bool :=
  pure (jsEndsWith s pat)

/-- Exception-aware `s.substring(0, n)`. -/
def jsSubstring0E (s : String) (n : Nat) : Except JsError String :=
  pure (jsSubstring0 s n)

/-- `Array.prototype.some` with an effectful callback (the callback may
throw; iteration stops at the first `true`). -/
def anyE {α : Type} (g : α → Except JsError Bool) : List α → Except JsError Bool
  | [] => pure false
  | x :: xs => do
      let b ← g x
      if b then pure true else anyE g xs

/-- `Array.prototype.filter` with an effectful callback. -/
def filterE {α : Type} (g : α → Except JsError Bool) : List α → Except JsError (List α)
  | [] => pure []
  | x :: xs => do
      let b ← g x
      let rest ← filterE g xs
      pure (if b then x :: rest else rest)

/-- `Array.prototype.map` with an effectful callback. -/
def mapE {α β : Type} (g : α → Except JsError β) : List α → Except JsError (List β)
  | [] => pure []
  | x :: xs => do
      let y ← g x
      let rest ← mapE g xs
      pure (y :: rest)

/-- Exception-aware `isLikelyText`. -/
def isLikelyTextE (filename : String) : Except JsError Bool :=
  anyE (fun ext => do jsEndsWithE (← jsToLowerCaseE filename) ext) textExtensions

/-- Exception-aware Context Selector (lines 9 to 14 of
`src/services/geminiService.ts`), mirroring each step of `filesContext`
through the exception-aware primitives. -/
def filesContextE (files : List ZipFile) : Except JsError String := do
  let tf ← filterE (fun f => do pure (!f.isDirectory && (← isLikelyTextE f.name))) files
  let blocks ← mapE
    (fun f => do pure ("FILE: " ++ f.path ++ "\nCONTENT:\n" ++ (← jsSubstring0E f.content 5000)))
    (tf.take 30)
  pure (jsJoin "\n\n---\n\n" blocks)

/-!
Concrete inputs used by witnesses and counterexamples.
-/

/-- Two-digit decimal rendering of `n + 1` (01, 02, ..., 40). -/
def twoDigits (n : Nat) : String :=
  if n + 1 < 10 then "0" ++ Nat.repr (n + 1) else Nat.repr (n + 1)

/-- The eligible file `fNN.ts` (`NN = i + 1`, zero-padded) with empty
content, as in the 40-file example of the specification. -/
def mkNumFile (i : Nat) : ZipFile :=
  { name := "f" ++ twoDigits i ++ ".ts"
    path := "f" ++ twoDigits i ++ ".ts"
    content := ""
    isDirectory := false }

/-- An entry list of 30 eligible `.ts` files `f01.ts` through `f30.ts`. -/
def files30 : List ZipFile :=
  (List.range 30).map mkNumFile

/-- An entry list of 40 eligible `.ts` files `f01.ts` through `f40.ts`. -/
def files40 : List ZipFile :=
  (List.range 40).map mkNumFile

/-- A file whose content is 6000 characters long. -/
def file6000 : ZipFile :=
  { name := "big.ts", path := "big.ts", content := ⟨List.replicate 6000 'a'⟩,
    isDirectory := false }

/-- A response body that is valid JSON but lacks the required
`dependencies` field. -/
def bodyMissingDeps : Json :=
  Json.obj
    [("summary", Json.str "a project"),
     ("entryPoint", Json.str "index.ts"),
     ("executionSimulation", Json.str "runs"),
     ("suggestions", Json.arr [])]

/-- An eligible entry whose path starts with a lower-case letter. -/
def entryLowerA : ZipFile :=
  { name := "a.ts", path := "a.ts", content := "", isDirectory := false }

/-- An eligible entry whose path starts with an upper-case letter that
precedes `a` in code-unit order. -/
def entryUpperB : ZipFile :=
  { name := "B.ts", path := "B.ts", content := "", isDirectory := false }

/-!
Helper lemmas shared by the claim theorems.
-/

theorem mem_contextFiles_imp {files : List ZipFile} {f : ZipFile}
    (h : f ∈ contextFiles files) :
    f.isDirectory = false ∧ isLikelyText f.name = true := by
  have hf : f ∈ textFiles files := List.mem_of_mem_take h
  have hp := (List.mem_filter.mp hf).2
  simp only [Bool.and_eq_true, Bool.not_eq_true'] at hp
  exact hp

theorem textFiles_eq_nil {files : List ZipFile}
    (h : ∀ f ∈ files, (!f.isDirectory && isLikelyText f.name) = false) :
    textFiles files = [] := by
  apply List.filter_eq_nil_iff.mpr
  intro a ha
  simp [h a ha]

theorem filesContext_eq_empty {files : List ZipFile}
    (h : ∀ f ∈ files, (!f.isDirectory && isLikelyText f.name) = false) :
    filesContext files = "" := by
  unfold filesContext contextFiles
  rw [textFiles_eq_nil h]
  rfl

theorem jsJoin_eq_specJoinBlocks : ∀ l : List String, jsJoin "\n\n---\n\n" l = specJoinBlocks l
  | [] => rfl
  | [b] => rfl
  | b :: c :: rest => by
      show b ++ "\n\n---\n\n" ++ jsJoin "\n\n---\n\n" (c :: rest)
          = b ++ "\n" ++ "\n" ++ "---" ++ "\n" ++ "\n" ++ specJoinBlocks (c :: rest)
      have hsep : ("\n" : String) ++ "\n" ++ "---" ++ "\n" ++ "\n" = "\n\n---\n\n" := by decide
      rw [jsJoin_eq_specJoinBlocks (c :: rest), ← hsep]
      simp only [String.append_assoc]

/-!
Claim theorems.
-/

/-- C1: an entry contributes a FILE block to the serialized context exactly
when it is not a directory, its name ends case-insensitively in one of the
allow-listed extensions, and it is among the first 30 eligible entries in
the list order; in particular, directory entries are never among the
serialized entries. -/
theorem claim1_selection_iff (files : List ZipFile) (f : ZipFile) :
    (f ∈ contextFiles files ↔
      f.isDirectory = false ∧ isLikelyText f.name = true ∧ f ∈ (textFiles files).take 30)
    ∧ (∀ g ∈ contextFiles files, g.isDirectory = false) := by
  constructor
  · constructor
    · intro h
      rcases mem_contextFiles_imp h with ⟨h1, h2⟩
      exact ⟨h1, h2, h⟩
    · rintro ⟨-, -, h⟩
      exact h
  · intro g hg
    exact (mem_contextFiles_imp hg).1

/-- Witness for C1 at a concrete input: the first of the forty eligible
files is selected. -/
theorem claim1_selection_iff_witness : mkNumFile 0 ∈ contextFiles files40 :=
  (claim1_selection_iff files40 (mkNumFile 0)).1.mpr (by decide)

/-- C2: exactly min(30, eligibleCount) entries are forwarded, and on the
40-file example the selected paths are f01.ts through f30.ts in filtered
order, with no re-sorting. -/
theorem claim2_count_cap :
    (∀ files : List ZipFile, (contextFiles files).length = min 30 (textFiles files).length)
    ∧ (contextFiles files40).map (fun f => f.path)
        = (List.range 30).map fun i => "f" ++ twoDigits i ++ ".ts" := by
  constructor
  · intro files
    simp [contextFiles]
  · decide

/-- C3: the content emitted for a selected entry is a prefix of the original
content of length at most 5000 characters, and a 6000-character content is
cut to exactly its first 5000 characters. -/
theorem claim3_truncation :
    (∀ (files : List ZipFile) (f : ZipFile), f ∈ contextFiles files →
      (jsSubstring0 f.content 5000).length ≤ 5000 ∧
        ∃ rest, f.content.data = (jsSubstring0 f.content 5000).data ++ rest)
    ∧ jsSubstring0 file6000.content 5000 = ⟨List.replicate 5000 'a'⟩ := by
  constructor
  · intro files f _
    constructor
    · show (f.content.data.take 5000).length ≤ 5000
      rw [List.length_take]
      exact Nat.min_le_left _ _
    · exact ⟨f.content.data.drop 5000, (List.take_append_drop 5000 f.content.data).symm⟩
  · show (⟨(List.replicate 6000 'a').take 5000⟩ : String) = ⟨List.replicate 5000 'a'⟩
    rw [List.take_replicate]
    norm_num

/-- Witness for C3 at a concrete input: a selected file of the 40-file
example. -/
theorem claim3_truncation_witness :
    (jsSubstring0 (mkNumFile 0).content 5000).length ≤ 5000 ∧
      ∃ rest, (mkNumFile 0).content.data = (jsSubstring0 (mkNumFile 0).content 5000).data ++ rest :=
  claim3_truncation.1 files40 (mkNumFile 0) (by decide)

/-- C4: the serialized context is the selected, truncated entries rendered
with the literal per-entry template and joined with a blank line, a `---`
line, and another blank line between consecutive entries, with no trailing
delimiter; the empty entry list and a fully filtered-out entry list give
the empty string. -/
theorem claim4_serialization :
    (∀ files : List ZipFile,
        filesContext files = specJoinBlocks ((contextFiles files).map fileBlock))
    ∧ filesContext [] = ""
    ∧ (∀ files : List ZipFile,
        (∀ f ∈ files, (!f.isDirectory && isLikelyText f.name) = false) →
          filesContext files = "") :=
  ⟨fun _ => jsJoin_eq_specJoinBlocks _, rfl, fun _ h => filesContext_eq_empty h⟩

/-- Witness for C4 at a concrete input: a single directory entry is filtered
out and the serialized string is empty. -/
theorem claim4_serialization_witness :
    filesContext [⟨"d", "d", "", true⟩] = "" :=
  claim4_serialization.2.2 [⟨"d", "d", "", true⟩] (by decide)

/-- C5 counterexample: on a response body that is valid JSON but lacks the
required `dependencies` field, `analyzeCodebase` does not fail — line 58 is
`JSON.parse(response.text) as AnalysisResult`, and the `as` assertion
performs no runtime check, so the invocation fulfills with the unvalidated
parsed object instead of failing with a contract violation. -/
theorem claim5_counterexample :
    (analyzeCodebase (fun _ => TransportOutcome.success (some bodyMissingDeps)) []).1
      = JsOutcome.ok bodyMissingDeps := rfl

/-- C5 (amended): if the response body is not valid JSON, `JSON.parse`
throws and the operation fails with that parse error; if the body is valid
JSON, the client returns the parsed value verbatim without validating the
required fields (so it indeed never substitutes defaults, but a body
missing `dependencies` yields a fulfilled result rather than an error). -/
theorem claim5_parse_unvalidated (respond : String → TransportOutcome)
    (files : List ZipFile) (body : Option Json)
    (h : respond (buildPrompt files) = TransportOutcome.success body) :
    (body = none →
      (analyzeCodebase respond files).1 = JsOutcome.thrown JsError.syntaxError)
    ∧ ∀ j : Json, body = some j → (analyzeCodebase respond files).1 = JsOutcome.ok j := by
  constructor
  · intro hb
    subst hb
    simp only [analyzeCodebase]
    rw [h]
  · intro j hj
    subst hj
    simp only [analyzeCodebase]
    rw [h]

/-- Witness for C5 at a concrete input: a malformed body makes the
invocation reject with the parse error. -/
theorem claim5_parse_unvalidated_witness :
    (analyzeCodebase (fun _ => TransportOutcome.success none) []).1
      = JsOutcome.thrown JsError.syntaxError :=
  (claim5_parse_unvalidated (fun _ => TransportOutcome.success none) [] none rfl).1 rfl

/-- C6: when the transport or service fails, the awaited call rejects and
the rejection propagates out of `analyzeCodebase` uncaught, carrying the
upstream cause; the invocation produces no result. -/
theorem claim6_service_failure (respond : String → TransportOutcome)
    (files : List ZipFile) (cause : String)
    (h : respond (buildPrompt files) = TransportOutcome.failure cause) :
    (analyzeCodebase respond files).1 = JsOutcome.thrown (JsError.upstreamFailure cause)
    ∧ ∀ j : Json, (analyzeCodebase respond files).1 ≠ JsOutcome.ok j := by
  have hmain :
      (analyzeCodebase respond files).1 = JsOutcome.thrown (JsError.upstreamFailure cause) := by
    simp only [analyzeCodebase]
    rw [h]
  refine ⟨hmain, fun j hj => ?_⟩
  rw [hmain] at hj
  exact JsOutcome.noConfusion hj

/-- Witness for C6 at a concrete input: a timed-out upstream call. -/
theorem claim6_service_failure_witness :
    (analyzeCodebase (fun _ => TransportOutcome.failure "timeout") []).1
      = JsOutcome.thrown (JsError.upstreamFailure "timeout") :=
  (claim6_service_failure (fun _ => TransportOutcome.failure "timeout") [] "timeout" rfl).1

/-- C7 counterexample: the serialized string is the whole output of the
selector stage, and it does not include the count of eligible-but-dropped
entries: a 30-file list (nothing dropped) and a 40-file list (10 dropped)
produce identical output, so no component of the output can be that count. -/
theorem claim7_counterexample :
    filesContext files30 = filesContext files40
    ∧ specDroppedCount files30 = 0 ∧ specDroppedCount files40 = 10 :=
  ⟨by decide, by decide, by decide⟩

/-- C7 (amended): the count of eligible-but-dropped entries — eligible count
minus 30, floored at 0 — equals the number of eligible entries that are not
forwarded, but it is only an arithmetic consequence of the stage, not part
of its output; the selector output is the serialized string alone. -/
theorem claim7_dropped_count (files : List ZipFile) :
    specDroppedCount files = (textFiles files).length - (contextFiles files).length := by
  unfold specDroppedCount contextFiles
  rw [List.length_take]
  omega

/-- C10: with an empty entry list, or one in which no entry is eligible,
`analyzeCodebase` does not fail locally: the context string is empty, the
prompt is the template around the empty context, exactly one outbound
request is still issued, and the invocation behaves exactly as on the empty
list. -/
theorem claim10_no_local_failure (respond : String → TransportOutcome)
    (files : List ZipFile)
    (h : ∀ f ∈ files, (!f.isDirectory && isLikelyText f.name) = false) :
    (analyzeCodebase respond files).2 = [buildPrompt files]
    ∧ filesContext files = ""
    ∧ buildPrompt files = promptBefore ++ "" ++ promptAfter
    ∧ analyzeCodebase respond files = analyzeCodebase respond [] := by
  have hctx : filesContext files = "" := filesContext_eq_empty h
  have hprompt : buildPrompt files = buildPrompt [] := by
    unfold buildPrompt
    rw [hctx]
    rfl
  refine ⟨?_, hctx, ?_, ?_⟩
  · simp only [analyzeCodebase]
    cases hr : respond (buildPrompt files) with
    | failure cause => rfl
    | success body => cases body <;> rfl
  · unfold buildPrompt
    rw [hctx]
  · simp only [analyzeCodebase]
    rw [hprompt]

/-- Witness for C10 at a concrete input: the empty entry list with a failing
transport still issues its single request. -/
theorem claim10_no_local_failure_witness :
    (analyzeCodebase (fun _ => TransportOutcome.failure "down") []).2 = [buildPrompt []]
    ∧ filesContext [] = "" :=
  ⟨(claim10_no_local_failure (fun _ => TransportOutcome.failure "down") [] (by simp)).1,
   (claim10_no_local_failure (fun _ => TransportOutcome.failure "down") [] (by simp)).2.1⟩

/-!
Order lemmas for the collation comparator, used to settle the ordering
claim.
-/

theorem cmpWeights_swap : ∀ a b : List Nat, cmpWeights b a = -cmpWeights a b
  | [], [] => rfl
  | [], _ :: _ => rfl
  | _ :: _, [] => rfl
  | a :: as, b :: bs => by
      rcases Nat.lt_trichotomy a b with h | h | h
      · have h2 : ¬ b < a := Nat.lt_asymm h
        simp [cmpWeights, h, h2]
      · subst h
        simp [cmpWeights, cmpWeights_swap as bs]
      · have h2 : ¬ a < b := Nat.lt_asymm h
        simp [cmpWeights, h, h2]

theorem cmpWeights_eq_zero : ∀ a b : List Nat, cmpWeights a b = 0 ↔ a = b
  | [], [] => by simp [cmpWeights]
  | [], _ :: _ => by simp [cmpWeights]
  | _ :: _, [] => by simp [cmpWeights]
  | a :: as, b :: bs => by
      rcases Nat.lt_trichotomy a b with h | h | h
      · have h2 : ¬ b < a := Nat.lt_asymm h
        have h3 : a ≠ b := Nat.ne_of_lt h
        simp [cmpWeights, h, h2, h3]
      · subst h
        simp [cmpWeights, cmpWeights_eq_zero as bs]
      · have h2 : ¬ a < b := Nat.lt_asymm h
        have h3 : a ≠ b := (Nat.ne_of_lt h).symm
        simp [cmpWeights, h, h2, h3]

theorem cmpWeights_trans : ∀ a b c : List Nat,
    cmpWeights a b ≤ 0 → cmpWeights b c ≤ 0 → cmpWeights a c ≤ 0
  | [], _, c => by
      intro h1 h2
      cases c <;> norm_num [cmpWeights]
  | _ :: _, [], _ => by
      intro h1 h2
      norm_num [cmpWeights] at h1
  | _ :: _, _ :: _, [] => by
      intro h1 h2
      norm_num [cmpWeights] at h2
  | x :: xs, y :: ys, z :: zs => by
      intro h1 h2
      simp only [cmpWeights] at h1 h2 ⊢
      rcases Nat.lt_trichotomy x y with hxy | hxy | hxy
      · rcases Nat.lt_trichotomy y z with hyz | hyz | hyz
        · rw [if_pos (by omega : x < z)]
          norm_num
        · subst hyz
          rw [if_pos hxy]
          norm_num
        · rw [if_neg (by omega : ¬ y < z), if_pos hyz] at h2
          omega
      · subst hxy
        rw [if_neg (Nat.lt_irrefl x), if_neg (Nat.lt_irrefl x)] at h1
        rcases Nat.lt_trichotomy x z with hxz | hxz | hxz
        · rw [if_pos hxz]
          norm_num
        · subst hxz
          rw [if_neg (Nat.lt_irrefl x), if_neg (Nat.lt_irrefl x)] at h2 ⊢
          exact cmpWeights_trans xs ys zs h1 h2
        · rw [if_neg (by omega : ¬ x < z), if_pos hxz] at h2
          omega
      · rw [if_neg (by omega : ¬ x < y), if_pos hxy] at h1
        omega

theorem localeCompare_swap (a b : String) : localeCompare b a = -localeCompare a b := by
  unfold localeCompare
  by_cases h : cmpWeights (primaryWeights a) (primaryWeights b) = 0
  · have hba : cmpWeights (primaryWeights b) (primaryWeights a) = 0 := by
      rw [cmpWeights_swap, h]
      decide
    rw [if_pos hba, if_pos h, cmpWeights_swap]
  · have hba : ¬ cmpWeights (primaryWeights b) (primaryWeights a) = 0 := by
      rw [cmpWeights_swap]
      intro hc
      exact h (by omega)
    rw [if_neg hba, if_neg h, cmpWeights_swap]

theorem lcLe_total : ∀ a b : ZipFile, lcLe a b ∨ lcLe b a := by
  intro a b
  unfold lcLe
  rw [localeCompare_swap]
  omega

theorem lcLe_trans : ∀ a b c : ZipFile, lcLe a b → lcLe b c → lcLe a c := by
  intro a b c h1 h2
  unfold lcLe localeCompare at h1 h2 ⊢
  by_cases hab : cmpWeights (primaryWeights a.path) (primaryWeights b.path) = 0
  · have hab2 : primaryWeights a.path = primaryWeights b.path :=
      (cmpWeights_eq_zero _ _).mp hab
    rw [if_pos hab] at h1
    by_cases hbc : cmpWeights (primaryWeights b.path) (primaryWeights c.path) = 0
    · have hbc2 : primaryWeights b.path = primaryWeights c.path :=
        (cmpWeights_eq_zero _ _).mp hbc
      rw [if_pos hbc] at h2
      have hac : cmpWeights (primaryWeights a.path) (primaryWeights c.path) = 0 :=
        (cmpWeights_eq_zero _ _).mpr (by rw [hab2, hbc2])
      rw [if_pos hac]
      exact cmpWeights_trans _ _ _ h1 h2
    · rw [if_neg hbc] at h2
      have hac : cmpWeights (primaryWeights a.path) (primaryWeights c.path)
          = cmpWeights (primaryWeights b.path) (primaryWeights c.path) := by
        rw [hab2]
      have hacne : ¬ cmpWeights (primaryWeights a.path) (primaryWeights c.path) = 0 := by
        rw [hac]
        exact hbc
      rw [if_neg hacne, hac]
      exact h2
  · rw [if_neg hab] at h1
    by_cases hbc : cmpWeights (primaryWeights b.path) (primaryWeights c.path) = 0
    · have hbc2 : primaryWeights b.path = primaryWeights c.path :=
        (cmpWeights_eq_zero _ _).mp hbc
      have hac : cmpWeights (primaryWeights a.path) (primaryWeights c.path)
          = cmpWeights (primaryWeights a.path) (primaryWeights b.path) := by
        rw [hbc2]
      have hacne : ¬ cmpWeights (primaryWeights a.path) (primaryWeights c.path) = 0 := by
        rw [hac]
        exact hab
      rw [if_neg hacne, hac]
      exact h1
    · rw [if_neg hbc] at h2
      have hac0 : cmpWeights (primaryWeights a.path) (primaryWeights c.path) ≤ 0 :=
        cmpWeights_trans _ _ _ h1 h2
      have hacne : ¬ cmpWeights (primaryWeights a.path) (primaryWeights c.path) = 0 := by
        intro h0
        have hpac : primaryWeights a.path = primaryWeights c.path :=
          (cmpWeights_eq_zero _ _).mp h0
        rw [← hpac] at h2
        rw [cmpWeights_swap] at h2
        exact hab (by omega)
      rw [if_neg hacne]
      exact hac0

/-- C8 counterexample: the extracted list is sorted by `localeCompare`,
which is not case-sensitive code-unit order: on the entries with paths
`B.ts` and `a.ts` the sort places `a.ts` first, although `a.ts` is greater
than `B.ts` in code-unit order, so the consecutive pair violates the
claimed ordering. -/
theorem claim8_counterexample :
    sortEntries [entryUpperB, entryLowerA] = [entryLowerA, entryUpperB]
    ∧ codeUnitLe entryLowerA.path entryUpperB.path = false :=
  ⟨by decide, by decide⟩

/-- C8 (amended): the extracted entry list is ordered ascending by the
default-collation comparison of paths (`localeCompare`: case-insensitive at
the primary level, lower case before upper case on primary ties), not by
case-sensitive code-unit order: every sorted list is pairwise ordered under
the comparator order. -/
theorem claim8_sorted_by_collation (files : List ZipFile) :
    List.Sorted lcLe (sortEntries files) := by
  haveI : IsTotal ZipFile lcLe := ⟨lcLe_total⟩
  haveI : IsTrans ZipFile lcLe := ⟨lcLe_trans⟩
  exact List.sorted_insertionSort lcLe files

/-!
Lemmas about the exception-aware embedding, used to settle the totality
claim.
-/

theorem anyE_pure {α : Type} (p : α → Bool) (g : α → Except JsError Bool)
    (hg : ∀ x, g x = pure (p x)) : ∀ l : List α, anyE g l = pure (l.any p)
  | [] => rfl
  | x :: xs => by
      simp only [anyE, hg x, pure_bind, List.any_cons]
      cases hpx : p x <;> simp [hpx, anyE_pure p g hg xs]

theorem filterE_pure {α : Type} (p : α → Bool) (g : α → Except JsError Bool)
    (hg : ∀ x, g x = pure (p x)) : ∀ l : List α, filterE g l = pure (l.filter p)
  | [] => rfl
  | x :: xs => by
      simp only [filterE, hg x, pure_bind, filterE_pure p g hg xs, List.filter_cons]

theorem mapE_pure {α β : Type} (m : α → β) (g : α → Except JsError β)
    (hg : ∀ x, g x = pure (m x)) : ∀ l : List α, mapE g l = pure (l.map m)
  | [] => rfl
  | x :: xs => by
      simp only [mapE, hg x, pure_bind, mapE_pure m g hg xs, List.map_cons]

theorem isLikelyTextE_eq (filename : String) :
    isLikelyTextE filename = pure (isLikelyText filename) := by
  unfold isLikelyTextE isLikelyText
  exact anyE_pure _ _ (fun ext => rfl) textExtensions

/-- C9: the Context Selector is a total, pure function of the entry list:
the exception-aware embedding of the selector stage reaches no thrown
exception on any well-formed entry list (including entries with empty
content or zero-length paths) and returns exactly the value of the pure
selector function. -/
theorem claim9_selector_total (files : List ZipFile) :
    filesContextE files = Except.ok (filesContext files) := by
  have hfilter :
      filterE (fun f => do pure (!f.isDirectory && (← isLikelyTextE f.name))) files
        = pure (files.filter fun f => !f.isDirectory && isLikelyText f.name) :=
    filterE_pure (fun f => !f.isDirectory && isLikelyText f.name) _
      (fun f => by rw [isLikelyTextE_eq]; rfl) files
  have hmap :
      mapE (fun f => do
          pure ("FILE: " ++ f.path ++ "\nCONTENT:\n" ++ (← jsSubstring0E f.content 5000)))
        ((files.filter fun f => !f.isDirectory && isLikelyText f.name).take 30)
        = pure (((files.filter fun f => !f.isDirectory && isLikelyText f.name).take 30).map
            fileBlock) :=
    mapE_pure fileBlock _ (fun f => rfl) _
  unfold filesContextE
  rw [hfilter, pure_bind, hmap, pure_bind]
  rfl
